import Mathlib

/-!
Verification development for the session-stop hook (`hooks/stop.py`).

The hook's core pipeline is embedded shallowly:
* `JValue` models the JSON values produced by `json.loads` (JSON numbers are
  modelled as integers; floating-point literals play no role in any property
  below).
* `parse_transcript`, `extract_session_info`, the summary renderer and `main`
  are translated statement by statement from the source.  Python operations
  that can raise (`.get` on a non-dict, `len`/slicing on unsuitable values,
  `set()` over unhashable elements, `str.join` over non-strings) are modelled
  in the `Except String` monad; an `Except.error` result corresponds to the
  Python function raising.
-/

/-- A decoded JSON value, as produced by Python's `json.loads`.
JSON numbers are modelled as integers. -/
inductive JValue where
  | null
  | bool (b : Bool)
  | num (n : Int)
  | str (s : String)
  | arr (xs : List JValue)
  | obj (kvs : List (String × JValue))

/-- Python `dict.get(k, default)`: the stored value if the key is present
(even when that value is `None`), the default otherwise. -/
def dGet (kvs : List (String × JValue)) (k : String) (d : JValue) : JValue :=
  match kvs.find? (fun kv => kv.1 == k) with
  | some kv => kv.2
  | none => d

/-- Python `k in dict`: key membership. -/
def hasKey (kvs : List (String × JValue)) (k : String) : Bool :=
  kvs.any (fun kv => kv.1 == k)

/-- Python truthiness of a JSON-derived value. -/
def truthy : JValue → Bool
  | .null => false
  | .bool b => b
  | .num n => n != 0
  | .str s => !s.data.isEmpty
  | .arr xs => !xs.isEmpty
  | .obj kvs => !kvs.isEmpty

/-- Whether a JSON-derived value is hashable in Python (lists and dicts are
not; `set()` raises `TypeError` on them). -/
def pyHashable : JValue → Bool
  | .arr _ => false
  | .obj _ => false
  | _ => true

mutual

/-- Python `==` on JSON-derived values: structural, except that booleans
compare equal to the integers 0/1 and dict comparison ignores key order. -/
def pyEq : JValue → JValue → Bool
  | .null, .null => true
  | .bool a, .bool b => a == b
  | .bool a, .num n => (if a then (1 : Int) else 0) == n
  | .num n, .bool b => n == (if b then (1 : Int) else 0)
  | .num a, .num b => a == b
  | .str a, .str b => a == b
  | .arr a, .arr b => pyEqList a b
  | .obj a, .obj b => a.length == b.length && pyEqObj a b
  | _, _ => false

/-- Elementwise Python `==` on lists. -/
def pyEqList : List JValue → List JValue → Bool
  | [], [] => true
  | x :: xs, y :: ys => pyEq x y && pyEqList xs ys
  | _, _ => false

/-- One-sided dict inclusion: every binding of the first dict is matched in
the second.  With equal sizes and unique keys this is Python dict equality. -/
def pyEqObj : List (String × JValue) → List (String × JValue) → Bool
  | [], _ => true
  | (k, v) :: rest, b =>
    (match b.find? (fun kv => kv.1 == k) with
     | some kv => pyEq v kv.2
     | none => false) && pyEqObj rest b

end

/-- Python `repr` of a string: single quotes, switching to double quotes when
the string contains a single quote but no double quote. -/
def strRepr (s : String) : String :=
  let q : Char :=
    if (s.data.any (fun c => c == Char.ofNat 39)) && !(s.data.any (fun c => c == Char.ofNat 34))
    then Char.ofNat 34 else Char.ofNat 39
  let esc : Char → String := fun c =>
    if c == '\\' then "\\\\"
    else if c == q then String.mk ['\\', q]
    else if c == '\n' then "\\n"
    else if c == '\r' then "\\r"
    else if c == '\t' then "\\t"
    else String.mk [c]
  String.mk [q] ++ String.join (s.data.map esc) ++ String.mk [q]

mutual

/-- Python `repr` of a JSON-derived value (the form used inside containers by
`str(...)`).  String escaping covers the quote, backslash, newline, carriage
return and tab; other characters are kept verbatim (hexadecimal escapes for
further control characters are not modelled — no property below depends on
them). -/
def pyRepr : JValue → String
  | .null => "None"
  | .bool true => "True"
  | .bool false => "False"
  | .num n => toString n
  | .str s => strRepr s
  | .arr xs => "[" ++ pyReprList xs ++ "]"
  | .obj kvs => "\x7b" ++ pyReprObj kvs ++ "\x7d"

/-- Comma-separated `repr`s of list elements. -/
def pyReprList : List JValue → String
  | [] => ""
  | [x] => pyRepr x
  | x :: xs => pyRepr x ++ ", " ++ pyReprList xs

/-- Comma-separated `key: value` `repr`s of dict entries. -/
def pyReprObj : List (String × JValue) → String
  | [] => ""
  | [(k, v)] => strRepr k ++ ": " ++ pyRepr v
  | (k, v) :: rest => strRepr k ++ ": " ++ pyRepr v ++ ", " ++ pyReprObj rest

end


/-- Python `str()` of a JSON-derived value: the string itself for strings,
`repr` otherwise. -/
def pyStr : JValue → String
  | .str s => s
  | v => pyRepr v

/-- Python `str.lower()`.  `Char.toLower` handles the ASCII range; the
lowering of further Unicode letters is not modelled (no property below
depends on it). -/
def pyLower (s : String) : String :=
  String.mk (s.data.map Char.toLower)

/-- The characters stripped by Python `str.strip()` (Unicode spaces beyond
these are not modelled). -/
def isPySpace (c : Char) : Bool :=
  c == ' ' || c == '\t' || c == '\n' || c == '\r' || c == Char.ofNat 11 || c == Char.ofNat 12

/-- Python `str.strip()`. -/
def pyStrip (s : String) : String :=
  String.mk (((s.data.dropWhile isPySpace).reverse.dropWhile isPySpace).reverse)

/-- Whether `pat` occurs as a contiguous substring of `hay` (Python `in`). -/
def strContainsAux (pat : List Char) : List Char → Bool
  | [] => pat.isEmpty
  | c :: rest => pat.isPrefixOf (c :: rest) || strContainsAux pat rest

/-- Python `pat in hay` on strings. -/
def strContains (hay pat : String) : Bool :=
  strContainsAux pat.data hay.data

/-- Python string slicing `s[:n]`. -/
def pySlice (s : String) (n : Nat) : String :=
  String.mk (s.data.take n)

/-- The truncation idiom `s[:n] + "..." if len(s) > n else s` used for
prompts, commands and errors. -/
def pyTrunc (s : String) (n : Nat) : String :=
  if s.length > n then pySlice s n ++ "..." else s

/-- The same truncation idiom applied to an arbitrary value (the Bash
`command` field is not type-checked by the source): `len()` raises
`TypeError` on numbers and booleans, and concatenating `"..."` to a sliced
list, or slicing a dict, raises `TypeError` as well.  Values that survive
untruncated are returned unchanged, exactly as in Python. -/
def pyTruncVal (v : JValue) (n : Nat) : Except String JValue :=
  match v with
  | .str s => .ok (.str (pyTrunc s n))
  | .arr xs => if xs.length > n then .error "TypeError: can only concatenate list (not str) to list" else .ok (.arr xs)
  | .obj kvs => if kvs.length > n then .error "TypeError: unhashable type: slice" else .ok (.obj kvs)
  | _ => .error "TypeError: object has no len()"

/-- The accumulated-facts aggregate built by `extract_session_info`.
`user_prompts` and `errors_encountered` always hold strings in the source;
the other sequences can hold arbitrary JSON values (tool names, file paths
and stored commands are taken from the record unchecked). -/
structure SessionInfo where
  user_prompts : List String
  tools_used : List JValue
  files_modified : List JValue
  files_created : List JValue
  files_read : List JValue
  commands_run : List JValue
  errors_encountered : List String
  total_messages : Nat

/-- The fresh aggregate: all lists empty, `total_messages = len(messages)`. -/
def initInfo (msgs : List JValue) : SessionInfo :=
  ⟨[], [], [], [], [], [], [], msgs.length⟩

/-- Prompt detection: `type == "human"` or `role == "user"`; only
string-typed, non-blank content is captured, truncated at 200 characters. -/
def promptRule (kvs : List (String × JValue)) (info : SessionInfo) : SessionInfo :=
  let msgType := dGet kvs "type" (.str "")
  if pyEq msgType (.str "human") || pyEq (dGet kvs "role" .null) (.str "user") then
    match dGet kvs "content" (dGet kvs "message" (.str "")) with
    | .str content =>
      if !(pyStrip content).data.isEmpty then
        { info with user_prompts := info.user_prompts ++ [pyTrunc content 200] }
      else info
    | _ => info
  else info

/-- The file-operation tracking block: mutation tools record the path into
`files_modified`, the read tool into `files_read`, each with an
already-present check. -/
def fileTrack (toolName filePath : JValue) (info : SessionInfo) : SessionInfo :=
  if pyEq toolName (.str "Write") || pyEq toolName (.str "Edit") || pyEq toolName (.str "MultiEdit") then
    if info.files_modified.any (fun e => pyEq filePath e) then info
    else { info with files_modified := info.files_modified ++ [filePath] }
  else if pyEq toolName (.str "Read") then
    if info.files_read.any (fun e => pyEq filePath e) then info
    else { info with files_read := info.files_read ++ [filePath] }
  else info

/-- Tool-use detection: `type == "tool_use"` or a literal `"tool"` key; the
identifier comes from `name` falling back to `tool`; first-seen tool names,
file paths from a dict-typed `input`, and Bash commands are recorded.  The
Bash command truncation can raise (`pyTruncVal`). -/
def toolRule (kvs : List (String × JValue)) (info : SessionInfo) : Except String SessionInfo :=
  let msgType := dGet kvs "type" (.str "")
  if pyEq msgType (.str "tool_use") || hasKey kvs "tool" then
    let toolName := dGet kvs "name" (dGet kvs "tool" (.str ""))
    if truthy toolName then
      let info1 :=
        if info.tools_used.any (fun e => pyEq toolName e) then info
        else { info with tools_used := info.tools_used ++ [toolName] }
      match dGet kvs "input" (.obj []) with
      | .obj inKvs =>
        let filePath := dGet inKvs "file_path" (dGet inKvs "path" (.str ""))
        let info2 := if truthy filePath then fileTrack toolName filePath info1 else info1
        if pyEq toolName (.str "Bash") then
          let command := dGet inKvs "command" (.str "")
          if truthy command then
            match pyTruncVal command 100 with
            | .ok cmd => .ok { info2 with commands_run := info2.commands_run ++ [cmd] }
            | .error e => .error e
          else .ok info2
        else .ok info2
      | _ => .ok info1
    else .ok info
  else .ok info

/-- Error detection: `type == "tool_result"`, or `"error"` occurring in the
lower-cased `str()` of the whole record; the stringified `content`/`output`
is stored (truncated at 150) when it contains `"error"` or `"failed"`. -/
def errorRule (kvs : List (String × JValue)) (info : SessionInfo) : SessionInfo :=
  let msgType := dGet kvs "type" (.str "")
  if pyEq msgType (.str "tool_result") || strContains (pyLower (pyStr (.obj kvs))) "error" then
    let content := pyStr (dGet kvs "content" (dGet kvs "output" (.str "")))
    if strContains (pyLower content) "error" || strContains (pyLower content) "failed" then
      { info with errors_encountered := info.errors_encountered ++ [pyTrunc content 150] }
    else info
  else info

/-- One iteration of the extraction loop.  The very first statement of the
loop body, `msg.get("type", "")`, raises `AttributeError` when the record is
not a dict, so non-object records abort the whole extraction. -/
def step (info : SessionInfo) (msg : JValue) : Except String SessionInfo :=
  match msg with
  | .obj kvs =>
    match toolRule kvs (promptRule kvs info) with
    | .ok i => .ok (errorRule kvs i)
    | .error e => .error e
  | _ => .error "AttributeError: object has no attribute get"

/-- The extraction loop over all records, propagating a raise. -/
def extractLoop (info : SessionInfo) : List JValue → Except String SessionInfo
  | [] => .ok info
  | m :: ms =>
    match step info m with
    | .ok i => extractLoop i ms
    | .error e => .error e

/-- First-occurrence deduplication with respect to Python `==`, starting
from an already-accumulated prefix.  This is both how the loop body builds
`tools_used` / the file lists, and (applied to `[]`) the model of
`list(set(xs))` — CPython's set iteration order is implementation defined,
and every property proved below is independent of the order choice. -/
def pyDedupAux (acc : List JValue) : List JValue → List JValue
  | [] => acc
  | x :: xs =>
    if acc.any (fun e => pyEq x e) then pyDedupAux acc xs
    else pyDedupAux (acc ++ [x]) xs

/-- Python `list(set(xs))`: raises `TypeError` when some element is
unhashable, otherwise produces the distinct elements. -/
def pySetList (xs : List JValue) : Except String (List JValue) :=
  if xs.all pyHashable then .ok (pyDedupAux [] xs) else .error "TypeError: unhashable type"

/-- The post-pass: deduplicate and cap the file lists, cap commands and
errors. -/
def postPass (info : SessionInfo) : Except String SessionInfo :=
  match pySetList info.files_modified with
  | .error e => .error e
  | .ok fm =>
    match pySetList info.files_read with
    | .error e => .error e
    | .ok fr =>
      .ok { info with
        files_modified := fm.take 20
        files_read := fr.take 20
        commands_run := info.commands_run.take 15
        errors_encountered := info.errors_encountered.take 10 }

/-- `extract_session_info` from `hooks/stop.py`. -/
def extract_session_info (msgs : List JValue) : Except String SessionInfo :=
  match extractLoop (initInfo msgs) msgs with
  | .ok info => postPass info
  | .error e => .error e

/-- Text-mode line iteration: split on newline.  (Python yields each line
with its trailing newline and omits a final empty line; both differences are
erased by the `strip()` + blank-skip that follows, so splitting is an
equivalent model.) -/
def pyLinesAux (cur : List Char) : List Char → List String
  | [] => [String.mk cur.reverse]
  | c :: rest =>
    if c == '\n' then String.mk cur.reverse :: pyLinesAux [] rest
    else pyLinesAux (c :: cur) rest

/-- The lines of a file's text content. -/
def pyLines (s : String) : List String :=
  pyLinesAux [] s.data

/-- `parse_transcript` from `hooks/stop.py`.  `loads` stands for the
standard-library `json.loads` restricted to one line (`none` models a
`JSONDecodeError`); the file argument is `none` when the file cannot be
opened (the surrounding `try` then returns the messages accumulated so far,
i.e. the empty list). -/
def parse_transcript (loads : String → Option JValue) (file : Option String) : List JValue :=
  match file with
  | none => []
  | some content =>
    (pyLines content).foldl
      (fun msgs line =>
        let l := pyStrip line
        if !l.data.isEmpty then
          match loads l with
          | some v => msgs ++ [v]
          | none => msgs
        else msgs) []

/-- The 60-character `=` banner line. -/
def bar60 : String :=
  String.mk (List.replicate 60 (Char.ofNat 61))

/-- The "What Was Requested" section: first 5 prompts, numbered from 1,
newlines collapsed to spaces, a "more prompts" line when over 5, and a
blank line. -/
def promptLines (info : SessionInfo) : List String :=
  if info.user_prompts.isEmpty then [] else
    ["## What Was Requested"] ++
    ((info.user_prompts.take 5).enum.map
      (fun p => "  " ++ toString (p.1 + 1) ++ ". " ++ pyStrip (p.2.replace "\n" " "))) ++
    (if info.user_prompts.length > 5 then
      ["  ... and " ++ toString (info.user_prompts.length - 5) ++ " more prompts"] else []) ++
    [""]

/-- The "Files Modified" section: first 10 paths, a "more files" line when
over 10, and a blank line. -/
def fileLines (info : SessionInfo) : List String :=
  if info.files_modified.isEmpty then [] else
    ["## Files Modified"] ++
    ((info.files_modified.take 10).map (fun f => "  ✏️  " ++ pyStr f)) ++
    (if info.files_modified.length > 10 then
      ["  ... and " ++ toString (info.files_modified.length - 10) ++ " more files"] else []) ++
    [""]

/-- Python `", ".join(xs)`: raises `TypeError` when an element is not a
string. -/
def pyJoinStrs (sep : String) (xs : List JValue) : Except String String :=
  if xs.all (fun v => match v with | .str _ => true | _ => false)
  then .ok (String.intercalate sep (xs.map pyStr))
  else .error "TypeError: sequence item is not str"

/-- The "Tools Used" section: the comma-joined tool names (the join raises
when a recorded tool name is not a string). -/
def toolLines (info : SessionInfo) : Except String (List String) :=
  if info.tools_used.isEmpty then .ok [] else
    match pyJoinStrs ", " info.tools_used with
    | .ok joined => .ok ["## Tools Used", "  " ++ joined, ""]
    | .error e => .error e

/-- The "Commands Executed" section: first 5 commands with a shell prompt
prefix, a "more commands" line when over 5, and a blank line. -/
def commandLines (info : SessionInfo) : List String :=
  if info.commands_run.isEmpty then [] else
    ["## Commands Executed"] ++
    ((info.commands_run.take 5).map (fun c => "  $ " ++ pyStr c)) ++
    (if info.commands_run.length > 5 then
      ["  ... and " ++ toString (info.commands_run.length - 5) ++ " more commands"] else []) ++
    [""]

/-- The "Errors Encountered" section: first 3 errors, each re-sliced to 100
characters, and a blank line. -/
def errLines (info : SessionInfo) : List String :=
  if info.errors_encountered.isEmpty then [] else
    ["## Errors Encountered"] ++
    ((info.errors_encountered.take 3).map (fun e => "  ⚠️  " ++ pySlice e 100)) ++
    [""]

/-- The "Statistics" section. -/
def statLines (info : SessionInfo) : List String :=
  ["## Statistics",
   "  • Total messages: " ++ toString info.total_messages,
   "  • Files modified: " ++ toString info.files_modified.length,
   "  • Files read: " ++ toString info.files_read.length,
   "  • Commands run: " ++ toString info.commands_run.length,
   ""]

/-- Everything after the header: the sections in source order plus the
closing banner. -/
def summaryBody (info : SessionInfo) : Except String (List String) :=
  match toolLines info with
  | .error e => .error e
  | .ok tl =>
    .ok (promptLines info ++ fileLines info ++ tl ++ commandLines info ++ errLines info ++ statLines info ++ [bar60])

/-- All lines of the report: banner, title, banner, the generation
timestamp (`nowText` stands for the `datetime.now().strftime(...)` result),
a blank line, then the body. -/
def summaryLines (info : SessionInfo) (nowText : String) : Except String (List String) :=
  match summaryBody info with
  | .error e => .error e
  | .ok body => .ok ([bar60, "SESSION SUMMARY", bar60, "Generated: " ++ nowText, ""] ++ body)

/-- `generate_summary` from `hooks/stop.py`: the lines joined with
newlines. -/
def generate_summary (info : SessionInfo) (nowText : String) : Except String String :=
  match summaryLines info nowText with
  | .error e => .error e
  | .ok ls => .ok (String.intercalate "\n" ls)

/-- Contents of a file in the modelled filesystem: either plain text or a
value written through `json.dump` (re-read losslessly by `json.load`). -/
inductive FileData where
  | text (s : String)
  | jsonData (v : JValue)

/-- The filesystem: an association of paths to contents. -/
abbrev FS := List (String × FileData)

/-- Read a file. -/
def fsRead (fs : FS) (p : String) : Option FileData :=
  match fs.find? (fun e => e.1 == p) with
  | some e => some e.2
  | none => none

/-- Overwrite or create a file. -/
def fsWrite (fs : FS) (p : String) (d : FileData) : FS :=
  match fs with
  | [] => [(p, d)]
  | e :: rest => if e.1 == p then (p, d) :: rest else e :: fsWrite rest p d

/-- `os.path.exists`. -/
def fsExists (fs : FS) (p : String) : Bool :=
  (fsRead fs p).isSome

/-- The text content of a file, as seen by `open(..., "r")`.  Transcripts
are modelled as text files; a `jsonData` file read as text is out of the
model (treated as unreadable). -/
def fsTextRead (fs : FS) (p : String) : Option String :=
  match fsRead fs p with
  | some (.text s) => some s
  | _ => none

/-- The `json.dump` image of a SessionInfo (dict insertion order of the
source). -/
def infoToJValue (info : SessionInfo) : JValue :=
  .obj [
    ("user_prompts", .arr (info.user_prompts.map JValue.str)),
    ("tools_used", .arr info.tools_used),
    ("files_modified", .arr info.files_modified),
    ("files_created", .arr info.files_created),
    ("files_read", .arr info.files_read),
    ("commands_run", .arr info.commands_run),
    ("errors_encountered", .arr (info.errors_encountered.map JValue.str)),
    ("total_messages", .num (info.total_messages : Int))]

/-- Result of one `main` invocation: the exit status (always 0), the
filesystem afterwards, what was printed to stdout and to stderr. -/
structure MainRes where
  exitCode : Nat
  fs : FS
  stdout : List String
  stderr : List String

/-- The transcript block of `main` (guarded by
`if transcript_path and os.path.exists(transcript_path)`), returning the
filesystem, stdout lines and stderr lines.  `os.path.exists` applied to a
truthy non-string value is outside the model (CPython would accept an
integer as a file descriptor); it is mapped to the generic top-level
handler.  `nowText`/`nowIso` stand for the two separate `datetime.now()`
calls in `generate_summary` and `save_summary`. -/
def transcriptStep (loads : String → Option JValue) (chat summary : Bool)
    (transcriptPath : JValue) (logDir : String) (nowText nowIso : String)
    (fs : FS) : FS × List String × List String :=
  if truthy transcriptPath then
    match transcriptPath with
    | .str p =>
      if fsExists fs p then
        let messages := parse_transcript loads (fsTextRead fs p)
        let fs1 :=
          if chat && !messages.isEmpty then
            fsWrite fs (logDir ++ "/chat.json") (.jsonData (.arr messages))
          else fs
        if summary && !messages.isEmpty then
          match extract_session_info messages with
          | .error e => (fs1, [], ["Error in stop hook: " ++ e])
          | .ok info =>
            match generate_summary info nowText with
            | .error e => (fs1, [], ["Error in stop hook: " ++ e])
            | .ok stext =>
              let fs2 := fsWrite fs1 (logDir ++ "/session_summary.txt") (.text stext)
              let fs3 := fsWrite fs2 (logDir ++ "/session_summary.json")
                (.jsonData (.obj [("generated_at", .str nowIso), ("info", infoToJValue info)]))
              (fs3, ["\n" ++ stext], [])
        else (fs1, [], [])
      else (fs, [], [])
    | _ => (fs, [], ["Error in stop hook: TypeError"])
  else (fs, [], [])

namespace StopHook

/-- `main` from `hooks/stop.py`.  `logDirOf` stands for the out-of-scope
collaborator `ensure_session_log_dir` (given the session id, a writable
directory); `loads` again stands for `json.loads` on one line; `stdin` is
the decoded standard input (`none` models a `JSONDecodeError`, which the
dedicated handler turns into a bare `sys.exit(0)`).  A non-dict stdin value
or a non-list archive hits `.get`/`.append` `AttributeError`, caught by the
top-level handler: exit 0 with a diagnostic on stderr. -/
def main (logDirOf : JValue → String) (loads : String → Option JValue)
    (chat summary : Bool) (stdin : Option JValue)
    (nowText nowIso : String) (fs : FS) : MainRes :=
  match stdin with
  | none => ⟨0, fs, [], []⟩
  | some input =>
    match input with
    | .obj kvs =>
      let sessionId := dGet kvs "session_id" (.str "unknown")
      let transcriptPath := dGet kvs "transcript_path" (.str "")
      let logDir := logDirOf sessionId
      let logPath := logDir ++ "/stop.json"
      let logData : JValue :=
        match fsRead fs logPath with
        | none => .arr []
        | some (.jsonData v) => v
        | some (.text s) =>
          match loads s with
          | some v => v
          | none => .arr []
      match logData with
      | .arr items =>
        let fs1 := fsWrite fs logPath (.jsonData (.arr (items ++ [input])))
        let r := transcriptStep loads chat summary transcriptPath logDir nowText nowIso fs1
        ⟨0, r.1, r.2.1, r.2.2⟩
      | _ => ⟨0, fs, [], ["Error in stop hook: AttributeError"]⟩
    | _ => ⟨0, fs, [], ["Error in stop hook: AttributeError"]⟩

end StopHook

/-- The prompt string a record contributes (before truncation), when the
prompt rule fires on it. -/
def capturedPromptK (kvs : List (String × JValue)) : Option String :=
  let msgType := dGet kvs "type" (.str "")
  if pyEq msgType (.str "human") || pyEq (dGet kvs "role" .null) (.str "user") then
    match dGet kvs "content" (dGet kvs "message" (.str "")) with
    | .str content => if !(pyStrip content).data.isEmpty then some content else none
    | _ => none
  else none

/-- `capturedPromptK` on a full record (non-dicts capture nothing — they
abort extraction before any rule). -/
def capturedPrompt : JValue → Option String
  | .obj kvs => capturedPromptK kvs
  | _ => none

/-- The tool identifier a record contributes, when the tool rule fires and
the identifier is truthy. -/
def capturedToolIdK (kvs : List (String × JValue)) : Option JValue :=
  let msgType := dGet kvs "type" (.str "")
  if pyEq msgType (.str "tool_use") || hasKey kvs "tool" then
    let toolName := dGet kvs "name" (dGet kvs "tool" (.str ""))
    if truthy toolName then some toolName else none
  else none

/-- `capturedToolIdK` on a full record. -/
def capturedToolId : JValue → Option JValue
  | .obj kvs => capturedToolIdK kvs
  | _ => none

/-- The truthy file path a record contributes to `files_modified` (one of
the three mutation tools with a dict-typed input). -/
def capturedMutationK (kvs : List (String × JValue)) : Option JValue :=
  match capturedToolIdK kvs with
  | none => none
  | some toolName =>
    match dGet kvs "input" (.obj []) with
    | .obj inKvs =>
      let filePath := dGet inKvs "file_path" (dGet inKvs "path" (.str ""))
      if truthy filePath &&
         (pyEq toolName (.str "Write") || pyEq toolName (.str "Edit") || pyEq toolName (.str "MultiEdit"))
      then some filePath else none
    | _ => none

/-- `capturedMutationK` on a full record. -/
def capturedMutation : JValue → Option JValue
  | .obj kvs => capturedMutationK kvs
  | _ => none

/-- The truthy file path a record contributes to `files_read` (the read
tool with a dict-typed input; the mutation branch shadows it as in the
source's `elif`). -/
def capturedReadK (kvs : List (String × JValue)) : Option JValue :=
  match capturedToolIdK kvs with
  | none => none
  | some toolName =>
    match dGet kvs "input" (.obj []) with
    | .obj inKvs =>
      let filePath := dGet inKvs "file_path" (dGet inKvs "path" (.str ""))
      if truthy filePath &&
         !(pyEq toolName (.str "Write") || pyEq toolName (.str "Edit") || pyEq toolName (.str "MultiEdit")) &&
         pyEq toolName (.str "Read")
      then some filePath else none
    | _ => none

/-- `capturedReadK` on a full record. -/
def capturedRead : JValue → Option JValue
  | .obj kvs => capturedReadK kvs
  | _ => none

/-- The value a record stores into `commands_run` (the shell tool, truthy
command, successful truncation). -/
def capturedCommandK (kvs : List (String × JValue)) : Option JValue :=
  match capturedToolIdK kvs with
  | none => none
  | some toolName =>
    match dGet kvs "input" (.obj []) with
    | .obj inKvs =>
      if pyEq toolName (.str "Bash") then
        let command := dGet inKvs "command" (.str "")
        if truthy command then
          match pyTruncVal command 100 with
          | .ok cmd => some cmd
          | .error _ => none
        else none
      else none
    | _ => none

/-- `capturedCommandK` on a full record. -/
def capturedCommand : JValue → Option JValue
  | .obj kvs => capturedCommandK kvs
  | _ => none

/-- The stringified error content a record contributes (before
truncation), when the error rule fires. -/
def capturedErrorK (kvs : List (String × JValue)) : Option String :=
  let msgType := dGet kvs "type" (.str "")
  if pyEq msgType (.str "tool_result") || strContains (pyLower (pyStr (.obj kvs))) "error" then
    let content := pyStr (dGet kvs "content" (dGet kvs "output" (.str "")))
    if strContains (pyLower content) "error" || strContains (pyLower content) "failed" then
      some content
    else none
  else none

/-- `capturedErrorK` on a full record. -/
def capturedError : JValue → Option String
  | .obj kvs => capturedErrorK kvs
  | _ => none

/-- The records on which one pass of the extraction loop cannot raise: the
record is a JSON object, a captured file path is hashable, and a truthy
shell command is a string. -/
def recSafe : JValue → Bool
  | .obj kvs =>
    (match capturedMutationK kvs with
     | some fp => pyHashable fp
     | none => true) &&
    (match capturedReadK kvs with
     | some fp => pyHashable fp
     | none => true) &&
    (match capturedToolIdK kvs with
     | some toolName =>
       match dGet kvs "input" (.obj []) with
       | .obj inKvs =>
         if pyEq toolName (.str "Bash") then
           match dGet inKvs "command" (.str "") with
           | .str _ => true
           | c => !truthy c
         else true
       | _ => true
     | none => true)
  | _ => false

/-- `pyDedupAux` viewed as the accumulator followed by the genuinely new
elements. -/
def dedupFrom (seen : List JValue) : List JValue → List JValue
  | [] => []
  | x :: xs =>
    if seen.any (fun e => pyEq x e) then dedupFrom seen xs
    else x :: dedupFrom (seen ++ [x]) xs

theorem pyDedupAux_eq_append (xs : List JValue) :
    ∀ acc, pyDedupAux acc xs = acc ++ dedupFrom acc xs := by
  induction xs with
  | nil => intro acc; simp [pyDedupAux, dedupFrom]
  | cons x xs ih =>
    intro acc
    simp only [pyDedupAux, dedupFrom]
    by_cases h : (acc.any fun e => pyEq x e) = true
    · simp [h, ih]
    · simp [h, ih]

theorem pyDedupAux_append (xs ys : List JValue) :
    ∀ acc, pyDedupAux acc (xs ++ ys) = pyDedupAux (pyDedupAux acc xs) ys := by
  induction xs with
  | nil => intro acc; simp [pyDedupAux]
  | cons x xs ih =>
    intro acc
    simp only [List.cons_append, pyDedupAux]
    by_cases h : (acc.any fun e => pyEq x e) = true <;> simp [h, ih]

theorem dedupFrom_subset (xs : List JValue) :
    ∀ seen z, z ∈ dedupFrom seen xs → z ∈ xs := by
  induction xs with
  | nil => intro seen z hz; simp [dedupFrom] at hz
  | cons x xs ih =>
    intro seen z hz
    simp only [dedupFrom] at hz
    by_cases h : (seen.any fun e => pyEq x e) = true
    · simp only [h, if_true] at hz
      exact List.mem_cons_of_mem _ (ih _ _ hz)
    · simp only [h, if_false] at hz
      rcases List.mem_cons.mp hz with rfl | hz
      · exact List.mem_cons_self _ _
      · exact List.mem_cons_of_mem _ (ih _ _ hz)

theorem dedupFrom_not_seen (xs : List JValue) :
    ∀ seen z, z ∈ dedupFrom seen xs → ∀ s ∈ seen, pyEq z s = false := by
  induction xs with
  | nil => intro seen z hz; simp [dedupFrom] at hz
  | cons x xs ih =>
    intro seen z hz s hs
    simp only [dedupFrom] at hz
    by_cases h : (seen.any fun e => pyEq x e) = true
    · simp only [h, if_true] at hz
      exact ih seen z hz s hs
    · simp only [h, if_false] at hz
      rcases List.mem_cons.mp hz with rfl | hz
      · simp only [List.any_eq_true, not_exists, not_and] at h
        push_neg at h
        rcases h with h
        have := h s hs
        simpa using this
      · exact ih (seen ++ [x]) z hz s (List.mem_append_left _ hs)

theorem dedupFrom_pairwise (xs : List JValue) :
    ∀ seen, List.Pairwise (fun a b => pyEq b a = false) (dedupFrom seen xs) := by
  induction xs with
  | nil => intro seen; simp [dedupFrom]
  | cons x xs ih =>
    intro seen
    simp only [dedupFrom]
    by_cases h : (seen.any fun e => pyEq x e) = true
    · simp only [h, if_true]; exact ih seen
    · simp only [h, if_false]
      refine List.Pairwise.cons ?_ (ih _)
      intro z hz
      exact dedupFrom_not_seen xs _ z hz x (by simp)

theorem dedupFrom_id (xs : List JValue) :
    ∀ seen, List.Pairwise (fun a b => pyEq b a = false) xs →
    (∀ z ∈ xs, ∀ s ∈ seen, pyEq z s = false) →
    dedupFrom seen xs = xs := by
  induction xs with
  | nil => intro seen _ _; simp [dedupFrom]
  | cons x xs ih =>
    intro seen hp hn
    rcases List.pairwise_cons.mp hp with ⟨hhead, htail⟩
    have hx : (seen.any fun e => pyEq x e) = false := by
      simp only [List.any_eq_false]
      intro s hs
      simp [hn x (List.mem_cons_self _ _) s hs]
    simp only [dedupFrom, hx, Bool.false_eq_true, if_false]
    have hrec : dedupFrom (seen ++ [x]) xs = xs := by
      apply ih (seen ++ [x]) htail
      intro z hz s hs
      rcases List.mem_append.mp hs with hs | hs
      · exact hn z (List.mem_cons_of_mem _ hz) s hs
      · rcases List.mem_singleton.mp hs with rfl
        exact hhead z hz
    rw [hrec]

theorem pyDedup_idem (xs : List JValue) :
    pyDedupAux [] (pyDedupAux [] xs) = pyDedupAux [] xs := by
  have h0 : ∀ l : List JValue, pyDedupAux [] l = dedupFrom [] l := by
    intro l; simpa using pyDedupAux_eq_append l []
  rw [h0, h0, dedupFrom_id]
  · exact dedupFrom_pairwise xs []
  · intro z _ s hs; simp at hs

theorem pyDedupAux_pairwise (xs : List JValue) :
    List.Pairwise (fun a b => pyEq b a = false) (pyDedupAux [] xs) := by
  have h0 : pyDedupAux [] xs = dedupFrom [] xs := by
    simpa using pyDedupAux_eq_append xs []
  rw [h0]; exact dedupFrom_pairwise xs []

theorem pyTrunc_length (s : String) (n : Nat) : (pyTrunc s n).length ≤ n + 3 := by
  unfold pyTrunc pySlice
  split
  · have h1 : (String.mk (s.data.take n) ++ "...").length = (s.data.take n).length + 3 := by
      simp [String.length_append]
      rfl
    rw [h1, List.length_take]
    omega
  · rename_i h
    omega

theorem pyTrunc_of_le (s : String) (n : Nat) (h : s.length ≤ n) : pyTrunc s n = s := by
  unfold pyTrunc
  rw [if_neg]
  omega

theorem pyTruncVal_str (v : JValue) (n : Nat) (s : String)
    (h : pyTruncVal v n = .ok (.str s)) :
    ∃ orig, v = .str orig ∧ s = pyTrunc orig n := by
  cases v <;> simp [pyTruncVal] at h
  case str t => exact ⟨t, rfl, h.symm⟩
  case arr xs => split at h <;> simp_all
  case obj kvs => split at h <;> simp_all

theorem promptRule_spec (kvs : List (String × JValue)) (i : SessionInfo) :
    promptRule kvs i =
      match capturedPromptK kvs with
      | some s => { i with user_prompts := i.user_prompts ++ [pyTrunc s 200] }
      | none => i := by
  unfold promptRule capturedPromptK
  by_cases hg : (pyEq (dGet kvs "type" (.str "")) (.str "human")
      || pyEq (dGet kvs "role" .null) (.str "user")) = true
  · simp only [hg, if_true]
    cases hc : dGet kvs "content" (dGet kvs "message" (.str "")) <;> simp only
    next s =>
      by_cases hs : (!(pyStrip s).data.isEmpty) = true <;> simp [hs]
  · simp [hg]

theorem errorRule_spec (kvs : List (String × JValue)) (i : SessionInfo) :
    errorRule kvs i =
      match capturedErrorK kvs with
      | some s => { i with errors_encountered := i.errors_encountered ++ [pyTrunc s 150] }
      | none => i := by
  unfold errorRule capturedErrorK
  by_cases hg : (pyEq (dGet kvs "type" (.str "")) (.str "tool_result")
      || strContains (pyLower (pyStr (.obj kvs))) "error") = true
  · simp only [hg, if_true]
    by_cases hc : (strContains (pyLower (pyStr (dGet kvs "content" (dGet kvs "output" (.str ""))))) "error"
        || strContains (pyLower (pyStr (dGet kvs "content" (dGet kvs "output" (.str ""))))) "failed") = true
      <;> simp [hc]
  · simp [hg]

theorem pyEq_str (v : JValue) (t : String) (h : pyEq v (.str t) = true) : v = .str t := by
  cases v <;> simp_all [pyEq]

theorem pyEq_str_ne (v : JValue) (a b : String) (hab : a ≠ b)
    (h : pyEq v (.str a) = true) : pyEq v (.str b) = false := by
  rcases pyEq_str v a h with rfl
  simp [pyEq, hab]

theorem toolRule_spec (kvs : List (String × JValue)) (i i' : SessionInfo)
    (h : toolRule kvs i = .ok i') :
    i' = { i with
      tools_used := pyDedupAux i.tools_used (capturedToolIdK kvs).toList,
      files_modified := pyDedupAux i.files_modified (capturedMutationK kvs).toList,
      files_read := pyDedupAux i.files_read (capturedReadK kvs).toList,
      commands_run := i.commands_run ++ (capturedCommandK kvs).toList } := by
  simp only [toolRule] at h
  simp only [capturedMutationK, capturedReadK, capturedCommandK, capturedToolIdK]
  by_cases hg : (pyEq (dGet kvs "type" (.str "")) (.str "tool_use") || hasKey kvs "tool") = true
  case neg =>
    simp only [hg, Bool.false_eq_true, reduceIte] at h ⊢
    simp_all [pyDedupAux]
  case pos =>
    simp only [hg, reduceIte] at h ⊢
    by_cases ht : truthy (dGet kvs "name" (dGet kvs "tool" (.str ""))) = true
    case neg =>
      simp only [ht, Bool.false_eq_true, reduceIte] at h ⊢
      simp_all [pyDedupAux]
    case pos =>
      simp only [ht, reduceIte] at h ⊢
      cases hin : dGet kvs "input" (.obj []) <;> simp only [hin] at h ⊢
      case obj inKvs =>
        by_cases hb : pyEq (dGet kvs "name" (dGet kvs "tool" (.str ""))) (.str "Bash") = true
        case pos =>
          have hw := pyEq_str_ne _ "Bash" "Write" (by decide) hb
          have he := pyEq_str_ne _ "Bash" "Edit" (by decide) hb
          have hme := pyEq_str_ne _ "Bash" "MultiEdit" (by decide) hb
          have hr := pyEq_str_ne _ "Bash" "Read" (by decide) hb
          simp only [hb, hw, he, hme, hr, Bool.or_self, Bool.or_false, Bool.false_or,
            Bool.and_false, Bool.false_and, reduceIte] at h ⊢
          simp only [fileTrack, hw, he, hme, hr, Bool.or_self, Bool.or_false, Bool.false_or,
            Bool.false_eq_true, reduceIte] at h
          by_cases hc : truthy (dGet inKvs "command" (.str "")) = true
          case neg =>
            simp only [hc, Bool.false_eq_true, reduceIte] at h ⊢
            simp only [pyDedupAux, Option.toList] at h ⊢
            repeat' split at h
            all_goals repeat' split
            all_goals simp_all
          case pos =>
            simp only [hc, reduceIte] at h ⊢
            cases htv : pyTruncVal (dGet inKvs "command" (.str "")) 100 <;>
              simp only [htv] at h ⊢
            case error e => simp at h
            case ok cmd =>
              by_cases hfp : truthy (dGet inKvs "file_path" (dGet inKvs "path" (.str ""))) = true <;>
                simp only [hfp, Bool.false_eq_true, reduceIte, pyDedupAux, Option.toList] at h ⊢ <;>
                (repeat' split at h) <;> (repeat' split) <;> simp_all
        case neg =>
          simp only [hb, Bool.false_eq_true, Bool.and_false, reduceIte] at h ⊢
          by_cases hfp : truthy (dGet inKvs "file_path" (dGet inKvs "path" (.str ""))) = true
          case neg =>
            simp only [hfp, Bool.false_eq_true, Bool.false_and, reduceIte] at h ⊢
            simp only [pyDedupAux, Option.toList] at h ⊢
            repeat' split at h
            all_goals repeat' split
            all_goals simp_all
          case pos =>
            simp only [hfp, Bool.true_and, reduceIte] at h ⊢
            simp only [fileTrack] at h
            by_cases hm : (pyEq (dGet kvs "name" (dGet kvs "tool" (.str ""))) (.str "Write")
                || pyEq (dGet kvs "name" (dGet kvs "tool" (.str ""))) (.str "Edit")
                || pyEq (dGet kvs "name" (dGet kvs "tool" (.str ""))) (.str "MultiEdit")) = true
            case pos =>
              simp only [hm, Bool.not_true, Bool.false_and, reduceIte] at h ⊢
              simp only [pyDedupAux, Option.toList] at h ⊢
              repeat' split at h
              all_goals repeat' split
              all_goals simp_all
            case neg =>
              simp only [hm, Bool.false_eq_true, Bool.not_false, Bool.true_and, reduceIte] at h ⊢
              by_cases hrd : pyEq (dGet kvs "name" (dGet kvs "tool" (.str ""))) (.str "Read") = true <;>
                simp only [hrd, Bool.false_eq_true, reduceIte, pyDedupAux, Option.toList] at h ⊢ <;>
                (repeat' split at h) <;> (repeat' split) <;> simp_all
      all_goals
        simp only [pyDedupAux, Option.toList] at h ⊢
        repeat' split at h
        all_goals repeat' split
        all_goals simp_all

theorem step_ok (i : SessionInfo) (m : JValue) (i' : SessionInfo) (h : step i m = .ok i') :
    i'.user_prompts = i.user_prompts ++ ((capturedPrompt m).map (fun s => pyTrunc s 200)).toList ∧
    i'.tools_used = pyDedupAux i.tools_used (capturedToolId m).toList ∧
    i'.files_modified = pyDedupAux i.files_modified (capturedMutation m).toList ∧
    i'.files_read = pyDedupAux i.files_read (capturedRead m).toList ∧
    i'.commands_run = i.commands_run ++ (capturedCommand m).toList ∧
    i'.errors_encountered = i.errors_encountered ++ ((capturedError m).map (fun s => pyTrunc s 150)).toList ∧
    i'.files_created = i.files_created ∧
    i'.total_messages = i.total_messages := by
  cases m
  case null => simp [step] at h
  case bool b => simp [step] at h
  case num n => simp [step] at h
  case str s => simp [step] at h
  case arr xs => simp [step] at h
  case obj kvs =>
    simp only [step] at h
    cases htool : toolRule kvs (promptRule kvs i) with
    | error e => rw [htool] at h; simp at h
    | ok imid =>
      rw [htool] at h
      simp only [Except.ok.injEq] at h
      subst h
      have hps := promptRule_spec kvs i
      have hts := toolRule_spec kvs (promptRule kvs i) imid htool
      have hes := errorRule_spec kvs imid
      cases hcp : capturedPromptK kvs <;> cases hce : capturedErrorK kvs <;>
        simp_all [capturedPrompt, capturedToolId, capturedMutation, capturedRead,
          capturedCommand, capturedError, Option.toList]

theorem extractLoop_spec (msgs : List JValue) :
    ∀ i i', extractLoop i msgs = .ok i' →
    i'.user_prompts = i.user_prompts ++ (msgs.filterMap capturedPrompt).map (fun s => pyTrunc s 200) ∧
    i'.tools_used = pyDedupAux i.tools_used (msgs.filterMap capturedToolId) ∧
    i'.files_modified = pyDedupAux i.files_modified (msgs.filterMap capturedMutation) ∧
    i'.files_read = pyDedupAux i.files_read (msgs.filterMap capturedRead) ∧
    i'.commands_run = i.commands_run ++ msgs.filterMap capturedCommand ∧
    i'.errors_encountered = i.errors_encountered ++ (msgs.filterMap capturedError).map (fun s => pyTrunc s 150) ∧
    i'.files_created = i.files_created ∧
    i'.total_messages = i.total_messages := by
  induction msgs with
  | nil =>
    intro i i' h
    simp only [extractLoop, Except.ok.injEq] at h
    subst h
    simp [pyDedupAux]
  | cons m ms ih =>
    intro i i' h
    simp only [extractLoop] at h
    cases hstep : step i m with
    | error e => rw [hstep] at h; simp at h
    | ok i1 =>
      rw [hstep] at h
      obtain ⟨hp, ht, hfm, hfr, hcr, hee, hfc, htm⟩ := step_ok i m i1 hstep
      obtain ⟨gp, gt, gfm, gfr, gcr, gee, gfc, gtm⟩ := ih i1 i' h
      refine ⟨?_, ?_, ?_, ?_, ?_, ?_, ?_, ?_⟩
      · rw [gp, hp, List.append_assoc]
        cases hc : capturedPrompt m <;> simp [List.filterMap_cons, hc]
      · rw [gt, ht, ← pyDedupAux_append]
        cases hc : capturedToolId m <;> simp [List.filterMap_cons, hc]
      · rw [gfm, hfm, ← pyDedupAux_append]
        cases hc : capturedMutation m <;> simp [List.filterMap_cons, hc]
      · rw [gfr, hfr, ← pyDedupAux_append]
        cases hc : capturedRead m <;> simp [List.filterMap_cons, hc]
      · rw [gcr, hcr, List.append_assoc]
        cases hc : capturedCommand m <;> simp [List.filterMap_cons, hc]
      · rw [gee, hee, List.append_assoc]
        cases hc : capturedError m <;> simp [List.filterMap_cons, hc]
      · rw [gfc, hfc]
      · rw [gtm, htm]

theorem extract_ok_spec (msgs : List JValue) (info : SessionInfo)
    (h : extract_session_info msgs = .ok info) :
    info.user_prompts = (msgs.filterMap capturedPrompt).map (fun s => pyTrunc s 200) ∧
    info.tools_used = pyDedupAux [] (msgs.filterMap capturedToolId) ∧
    info.files_modified = (pyDedupAux [] (msgs.filterMap capturedMutation)).take 20 ∧
    info.files_read = (pyDedupAux [] (msgs.filterMap capturedRead)).take 20 ∧
    info.files_created = [] ∧
    info.commands_run = (msgs.filterMap capturedCommand).take 15 ∧
    info.errors_encountered = ((msgs.filterMap capturedError).map (fun s => pyTrunc s 150)).take 10 ∧
    info.total_messages = msgs.length := by
  unfold extract_session_info at h
  cases hloop : extractLoop (initInfo msgs) msgs with
  | error e => rw [hloop] at h; simp at h
  | ok mid =>
    simp only [hloop] at h
    obtain ⟨hp, ht, hfm, hfr, hcr, hee, hfc, htm⟩ := extractLoop_spec msgs _ _ hloop
    simp only [initInfo, List.nil_append] at hp ht hfm hfr hcr hee hfc htm
    unfold postPass at h
    cases hsm : pySetList mid.files_modified with
    | error e => simp only [hsm] at h; exact Except.noConfusion h
    | ok fm =>
      simp only [hsm] at h
      cases hsr : pySetList mid.files_read with
      | error e => simp only [hsr] at h; exact Except.noConfusion h
      | ok fr =>
        simp only [hsr, Except.ok.injEq] at h
        subst h
        have hfm2 : fm = pyDedupAux [] (msgs.filterMap capturedMutation) := by
          unfold pySetList at hsm
          split at hsm
          · simp only [Except.ok.injEq] at hsm
            rw [← hsm, hfm, pyDedup_idem]
          · simp at hsm
        have hfr2 : fr = pyDedupAux [] (msgs.filterMap capturedRead) := by
          unfold pySetList at hsr
          split at hsr
          · simp only [Except.ok.injEq] at hsr
            rw [← hsr, hfr, pyDedup_idem]
          · simp at hsr
        subst hfm2 hfr2
        exact ⟨hp, ht, rfl, rfl, hfc, by rw [hcr], by rw [hee], htm⟩

theorem pyTruncVal_safe (c : JValue)
    (h : (match c with | JValue.str _ => true | c => !truthy c) = true)
    (ht : truthy c = true) : ∃ r, pyTruncVal c 100 = .ok r := by
  cases c <;> simp_all [pyTruncVal, truthy]

theorem toolRule_safe (kvs : List (String × JValue)) (i : SessionInfo)
    (hsafe : recSafe (.obj kvs) = true) : ∃ i2, toolRule kvs i = .ok i2 := by
  simp only [toolRule]
  by_cases hg : (pyEq (dGet kvs "type" (.str "")) (.str "tool_use") || hasKey kvs "tool") = true
  case neg => simp only [hg, Bool.false_eq_true, reduceIte]; exact ⟨i, rfl⟩
  case pos =>
    simp only [hg, reduceIte]
    by_cases ht : truthy (dGet kvs "name" (dGet kvs "tool" (.str ""))) = true
    case neg => simp only [ht, Bool.false_eq_true, reduceIte]; exact ⟨i, rfl⟩
    case pos =>
      simp only [ht, reduceIte]
      cases hin : dGet kvs "input" (.obj [])
      case obj inKvs =>
        by_cases hb : pyEq (dGet kvs "name" (dGet kvs "tool" (.str ""))) (.str "Bash") = true
        case neg => simp only [hb, Bool.false_eq_true, reduceIte]; exact ⟨_, rfl⟩
        case pos =>
          simp only [hb, reduceIte]
          by_cases hc : truthy (dGet inKvs "command" (.str "")) = true
          case neg => simp only [hc, Bool.false_eq_true, reduceIte]; exact ⟨_, rfl⟩
          case pos =>
            simp only [hc, reduceIte]
            have hcap : capturedToolIdK kvs = some (dGet kvs "name" (dGet kvs "tool" (.str ""))) := by
              simp [capturedToolIdK, hg, ht]
            simp only [recSafe, Bool.and_eq_true] at hsafe
            obtain ⟨⟨-, -⟩, hsafe3⟩ := hsafe
            simp only [hcap, hin, hb, reduceIte] at hsafe3
            obtain ⟨r, hr⟩ := pyTruncVal_safe _ hsafe3 hc
            simp only [hr]
            exact ⟨_, rfl⟩
      all_goals exact ⟨_, rfl⟩

theorem step_safe (m : JValue) (i : SessionInfo) (hsafe : recSafe m = true) :
    ∃ i', step i m = .ok i' := by
  cases m
  case obj kvs =>
    obtain ⟨i2, h2⟩ := toolRule_safe kvs (promptRule kvs i) hsafe
    exact ⟨errorRule kvs i2, by simp [step, h2]⟩
  all_goals simp [recSafe] at hsafe

theorem extractLoop_safe (msgs : List JValue) (hsafe : ∀ m ∈ msgs, recSafe m = true) :
    ∀ i, ∃ i', extractLoop i msgs = .ok i' := by
  induction msgs with
  | nil => intro i; exact ⟨i, rfl⟩
  | cons m ms ih =>
    intro i
    obtain ⟨i1, h1⟩ := step_safe m i (hsafe m (List.mem_cons_self _ _))
    obtain ⟨i2, h2⟩ := ih (fun x hx => hsafe x (List.mem_cons_of_mem _ hx)) i1
    exact ⟨i2, by simp [extractLoop, h1, h2]⟩

theorem capturedMutation_hashable (m v : JValue) (hsafe : recSafe m = true)
    (hc : capturedMutation m = some v) : pyHashable v = true := by
  cases m <;> simp [capturedMutation] at hc
  case obj kvs =>
    simp only [recSafe, Bool.and_eq_true] at hsafe
    obtain ⟨⟨h1, -⟩, -⟩ := hsafe
    rw [hc] at h1
    exact h1

theorem capturedRead_hashable (m v : JValue) (hsafe : recSafe m = true)
    (hc : capturedRead m = some v) : pyHashable v = true := by
  cases m <;> simp [capturedRead] at hc
  case obj kvs =>
    simp only [recSafe, Bool.and_eq_true] at hsafe
    obtain ⟨⟨-, h2⟩, -⟩ := hsafe
    rw [hc] at h2
    exact h2

theorem extract_safe (msgs : List JValue) (hsafe : ∀ m ∈ msgs, recSafe m = true) :
    ∃ info, extract_session_info msgs = .ok info := by
  obtain ⟨mid, hloop⟩ := extractLoop_safe msgs hsafe (initInfo msgs)
  obtain ⟨-, -, hfm, hfr, -, -, -, -⟩ := extractLoop_spec msgs _ _ hloop
  simp only [initInfo] at hfm hfr
  have hsub : ∀ (l : List JValue) v, v ∈ pyDedupAux [] l → v ∈ l := by
    intro l v hv
    have he : pyDedupAux [] l = dedupFrom [] l := by simpa using pyDedupAux_eq_append l []
    rw [he] at hv
    exact dedupFrom_subset l [] v hv
  have hallm : (mid.files_modified.all pyHashable) = true := by
    rw [hfm, List.all_eq_true]
    intro v hv
    obtain ⟨m, hm, hcm⟩ := List.mem_filterMap.mp (hsub _ v hv)
    exact capturedMutation_hashable m v (hsafe m hm) hcm
  have hallr : (mid.files_read.all pyHashable) = true := by
    rw [hfr, List.all_eq_true]
    intro v hv
    obtain ⟨m, hm, hcm⟩ := List.mem_filterMap.mp (hsub _ v hv)
    exact capturedRead_hashable m v (hsafe m hm) hcm
  have hsm : pySetList mid.files_modified = .ok (pyDedupAux [] mid.files_modified) := by
    unfold pySetList
    rw [if_pos hallm]
  have hsr : pySetList mid.files_read = .ok (pyDedupAux [] mid.files_read) := by
    unfold pySetList
    rw [if_pos hallr]
  have hred : extract_session_info msgs = postPass mid := by
    unfold extract_session_info
    simp only [hloop]
  rw [hred]
  unfold postPass
  simp only [hsm, hsr]
  exact ⟨_, rfl⟩

theorem parse_foldl_spec (loads : String → Option JValue) :
    ∀ (lines : List String) (acc : List JValue),
      lines.foldl (fun msgs line =>
        let l := pyStrip line
        if !l.data.isEmpty then
          match loads l with
          | some v => msgs ++ [v]
          | none => msgs
        else msgs) acc
      = acc ++ (((lines.map pyStrip).filter (fun l => !l.data.isEmpty)).filterMap loads) := by
  intro lines
  induction lines with
  | nil => intro acc; simp
  | cons x xs ih =>
    intro acc
    rw [List.foldl_cons, ih]
    simp only [List.map_cons, List.filter_cons]
    by_cases hx : (!(pyStrip x).data.isEmpty) = true
    · simp only [hx, if_true]
      cases hl : loads (pyStrip x) <;>
        simp [List.filterMap_cons, hl]
    · simp only [Bool.not_eq_true] at hx
      simp [hx]

theorem fsRead_fsWrite_self (fs : FS) (p : String) (d : FileData) :
    fsRead (fsWrite fs p d) p = some d := by
  induction fs with
  | nil => simp [fsWrite, fsRead, List.find?]
  | cons e rest ih =>
    by_cases he : (e.1 == p) = true
    · simp [fsWrite, fsRead, he, List.find?]
    · rw [Bool.not_eq_true] at he
      simp only [fsWrite, he, Bool.false_eq_true, reduceIte]
      have hgoal : fsRead (e :: fsWrite rest p d) p = fsRead (fsWrite rest p d) p := by
        unfold fsRead
        rw [List.find?_cons_of_neg _ (by simp [he])]
      rw [hgoal]
      exact ih

theorem fsRead_fsWrite_other (fs : FS) (p q : String) (d : FileData) (hne : p ≠ q) :
    fsRead (fsWrite fs p d) q = fsRead fs q := by
  have hpq : (p == q) = false := beq_eq_false_iff_ne.mpr hne
  induction fs with
  | nil => simp [fsWrite, fsRead, List.find?, hpq]
  | cons e rest ih =>
    by_cases he : (e.1 == p) = true
    · have hep : e.1 = p := eq_of_beq he
      have heq : (e.1 == q) = false := by rw [hep]; exact hpq
      simp only [fsWrite, he, reduceIte]
      unfold fsRead
      rw [List.find?_cons_of_neg _ (by simp [hpq]), List.find?_cons_of_neg _ (by simp [heq])]
    · rw [Bool.not_eq_true] at he
      simp only [fsWrite, he, Bool.false_eq_true, reduceIte]
      by_cases heq : (e.1 == q) = true
      · unfold fsRead
        rw [List.find?_cons_of_pos _ (by simp [heq]), List.find?_cons_of_pos _ (by simp [heq])]
      · rw [Bool.not_eq_true] at heq
        have h1 : fsRead (e :: fsWrite rest p d) q = fsRead (fsWrite rest p d) q := by
          unfold fsRead
          rw [List.find?_cons_of_neg _ (by simp [heq])]
        have h2 : fsRead (e :: rest) q = fsRead rest q := by
          unfold fsRead
          rw [List.find?_cons_of_neg _ (by simp [heq])]
        rw [h1, h2]
        exact ih

theorem strAppend_cancel (a b c : String) (h : a ++ b = a ++ c) : b = c := by
  have hd : (a ++ b).data = (a ++ c).data := congrArg String.data h
  simp only [String.data_append] at hd
  have hbc : b.data = c.data := List.append_cancel_left hd
  cases b
  cases c
  exact congrArg String.mk hbc

theorem capturedCommand_str (m : JValue) (c : JValue) (h : capturedCommand m = some c) :
    ∀ s, c = .str s → ∃ orig, s = pyTrunc orig 100 := by
  intro s hs
  subst hs
  cases m <;> simp [capturedCommand] at h
  case obj kvs =>
    simp only [capturedCommandK] at h
    cases ht : capturedToolIdK kvs with
    | none => simp [ht] at h
    | some tn =>
      simp only [ht] at h
      cases hin : dGet kvs "input" (.obj []) <;> simp only [hin] at h
      case obj inKvs =>
        by_cases hb : pyEq tn (.str "Bash") = true
        case neg => simp [hb] at h
        case pos =>
          simp only [hb, reduceIte] at h
          by_cases hc : truthy (dGet inKvs "command" (.str "")) = true
          case neg => simp [hc] at h
          case pos =>
            simp only [hc, reduceIte] at h
            cases htv : pyTruncVal (dGet inKvs "command" (.str "")) 100 <;>
              simp only [htv] at h
            case error e => exact absurd h (by simp)
            case ok cmd =>
              simp only [Option.some.injEq] at h
              subst h
              obtain ⟨orig, -, horig⟩ := pyTruncVal_str _ _ _ htv
              exact ⟨orig, horig⟩
      all_goals simp at h

/-- C1 counterexample: the spec declares non-object JSON values valid records
and extraction non-raising, but on the transcript line `42` — which
`parse_transcript` happily turns into the record `42` — the very first
statement of the extraction loop, `msg.get("type", "")`, raises
`AttributeError`, so `extract_session_info` does not complete. -/
theorem claim_C1_counterexample :
    parse_transcript (fun s => if s = "42" then some (.num 42) else none) (some "42")
      = [JValue.num 42] ∧
    extract_session_info [JValue.num 42]
      = .error "AttributeError: object has no attribute get" := by
  exact ⟨rfl, rfl⟩

/-- C1 (amended): for sequences of JSON-object records whose captured file
paths are hashable and whose truthy shell-command values are strings,
`extract_session_info` completes without raising, and each classification
rule contributes independently — a record missing a rule's expected fields
is skipped for that rule only, leaving the other rules' captures intact. -/
theorem claim_C1 (msgs : List JValue) (hsafe : ∀ m ∈ msgs, recSafe m = true) :
    ∃ info, extract_session_info msgs = .ok info ∧
      info.user_prompts = (msgs.filterMap capturedPrompt).map (fun s => pyTrunc s 200) ∧
      info.tools_used = pyDedupAux [] (msgs.filterMap capturedToolId) ∧
      info.commands_run = (msgs.filterMap capturedCommand).take 15 ∧
      info.errors_encountered = ((msgs.filterMap capturedError).map (fun s => pyTrunc s 150)).take 10 := by
  obtain ⟨info, hok⟩ := extract_safe msgs hsafe
  obtain ⟨hp, ht, -, -, -, hcr, hee, -⟩ := extract_ok_spec msgs info hok
  exact ⟨info, hok, hp, ht, hcr, hee⟩

theorem claim_C1_witness :
    (∀ m ∈ [JValue.obj [("type", JValue.str "human")]], recSafe m = true) ∧
    ∃ info, extract_session_info [JValue.obj [("type", JValue.str "human")]] = .ok info ∧
      info.user_prompts = (([JValue.obj [("type", JValue.str "human")]].filterMap capturedPrompt).map (fun s => pyTrunc s 200)) ∧
      info.tools_used = pyDedupAux [] ([JValue.obj [("type", JValue.str "human")]].filterMap capturedToolId) ∧
      info.commands_run = ([JValue.obj [("type", JValue.str "human")]].filterMap capturedCommand).take 15 ∧
      info.errors_encountered = (([JValue.obj [("type", JValue.str "human")]].filterMap capturedError).map (fun s => pyTrunc s 150)).take 10 :=
  ⟨by decide, claim_C1 [JValue.obj [("type", JValue.str "human")]] (by decide)⟩

/-- C2: whatever the input, a successfully returned SessionInfo has at most
20 modified files, 20 read files, 15 commands and 10 errors — the post-pass
caps are unconditional. -/
theorem claim_C2 (msgs : List JValue) (info : SessionInfo)
    (h : extract_session_info msgs = .ok info) :
    info.files_modified.length ≤ 20 ∧ info.files_read.length ≤ 20 ∧
    info.commands_run.length ≤ 15 ∧ info.errors_encountered.length ≤ 10 := by
  obtain ⟨-, -, hfm, hfr, -, hcr, hee, -⟩ := extract_ok_spec msgs info h
  refine ⟨?_, ?_, ?_, ?_⟩
  · rw [hfm]; apply List.length_take_le
  · rw [hfr]; apply List.length_take_le
  · rw [hcr]; apply List.length_take_le
  · rw [hee]; apply List.length_take_le

theorem claim_C2_witness :
    extract_session_info [] = .ok ⟨[], [], [], [], [], [], [], 0⟩ ∧
    ((⟨[], [], [], [], [], [], [], 0⟩ : SessionInfo).files_modified.length ≤ 20 ∧
     (⟨[], [], [], [], [], [], [], 0⟩ : SessionInfo).files_read.length ≤ 20 ∧
     (⟨[], [], [], [], [], [], [], 0⟩ : SessionInfo).commands_run.length ≤ 15 ∧
     (⟨[], [], [], [], [], [], [], 0⟩ : SessionInfo).errors_encountered.length ≤ 10) :=
  ⟨rfl, claim_C2 [] ⟨[], [], [], [], [], [], [], 0⟩ rfl⟩

/-- C3: every stored prompt, string command and error has length at most its
limit plus the three-character marker, each is the truncation of the string
the rule captured, and a captured string at or under the limit is stored
verbatim. -/
theorem claim_C3 (msgs : List JValue) (info : SessionInfo)
    (h : extract_session_info msgs = .ok info) :
    (∀ s ∈ info.user_prompts, s.length ≤ 203 ∧
      ∃ orig, s = pyTrunc orig 200 ∧ (orig.length ≤ 200 → s = orig)) ∧
    (∀ c ∈ info.commands_run, ∀ s, c = JValue.str s → s.length ≤ 103 ∧
      ∃ orig, s = pyTrunc orig 100 ∧ (orig.length ≤ 100 → s = orig)) ∧
    (∀ e ∈ info.errors_encountered, e.length ≤ 153 ∧
      ∃ orig, e = pyTrunc orig 150 ∧ (orig.length ≤ 150 → e = orig)) := by
  obtain ⟨hp, -, -, -, -, hcr, hee, -⟩ := extract_ok_spec msgs info h
  refine ⟨?_, ?_, ?_⟩
  · intro s hs
    rw [hp] at hs
    obtain ⟨orig, -, rfl⟩ := List.mem_map.mp hs
    refine ⟨?_, orig, rfl, fun hle => pyTrunc_of_le orig 200 hle⟩
    have := pyTrunc_length orig 200
    omega
  · intro c hc s hcs
    rw [hcr] at hc
    obtain ⟨m, hm, hcm⟩ := List.mem_filterMap.mp (List.mem_of_mem_take hc)
    obtain ⟨orig, horig⟩ := capturedCommand_str m c hcm s hcs
    subst hcs
    refine ⟨?_, orig, horig, fun hle => ?_⟩
    · rw [horig]
      have := pyTrunc_length orig 100
      omega
    · rw [horig, pyTrunc_of_le orig 100 hle]
  · intro e he
    rw [hee] at he
    obtain ⟨orig, -, rfl⟩ := List.mem_map.mp (List.mem_of_mem_take he)
    refine ⟨?_, orig, rfl, fun hle => pyTrunc_of_le orig 150 hle⟩
    have := pyTrunc_length orig 150
    omega

theorem claim_C3_witness :
    extract_session_info [JValue.obj [("type", JValue.str "human"), ("content", JValue.str "hi")]]
      = .ok ⟨["hi"], [], [], [], [], [], [], 1⟩ ∧
    ((∀ s ∈ (⟨["hi"], [], [], [], [], [], [], 1⟩ : SessionInfo).user_prompts, s.length ≤ 203 ∧
      ∃ orig, s = pyTrunc orig 200 ∧ (orig.length ≤ 200 → s = orig)) ∧
     (∀ c ∈ (⟨["hi"], [], [], [], [], [], [], 1⟩ : SessionInfo).commands_run, ∀ s, c = JValue.str s → s.length ≤ 103 ∧
      ∃ orig, s = pyTrunc orig 100 ∧ (orig.length ≤ 100 → s = orig)) ∧
     (∀ e ∈ (⟨["hi"], [], [], [], [], [], [], 1⟩ : SessionInfo).errors_encountered, e.length ≤ 153 ∧
      ∃ orig, e = pyTrunc orig 150 ∧ (orig.length ≤ 150 → e = orig))) :=
  ⟨rfl, claim_C3 [JValue.obj [("type", JValue.str "human"), ("content", JValue.str "hi")]]
    ⟨["hi"], [], [], [], [], [], [], 1⟩ rfl⟩

/-- C4: `parse_transcript` yields exactly one record per non-blank line that
parses, in line order (the filter/filterMap normal form), and an unopenable
file yields the empty sequence. -/
theorem claim_C4 (loads : String → Option JValue) (content : String) :
    parse_transcript loads (some content) =
      (((pyLines content).map pyStrip).filter (fun l => !l.data.isEmpty)).filterMap loads ∧
    parse_transcript loads none = [] := by
  constructor
  · unfold parse_transcript
    simpa using parse_foldl_spec loads (pyLines content) []
  · rfl

/-- C5: whenever the captured prompts are exactly three strings and the
captured mutation paths are the same string path twice (the 3-prompt,
2-mutation-record transcript of the spec), the result has one modified file
and three prompts. -/
theorem claim_C5 (msgs : List JValue) (info : SessionInfo) (s1 s2 s3 fp : String)
    (hprompts : msgs.filterMap capturedPrompt = [s1, s2, s3])
    (hmuts : msgs.filterMap capturedMutation = [.str fp, .str fp])
    (h : extract_session_info msgs = .ok info) :
    info.files_modified.length = 1 ∧ info.user_prompts.length = 3 := by
  obtain ⟨hp, -, hfm, -, -, -, -, -⟩ := extract_ok_spec msgs info h
  constructor
  · rw [hfm, hmuts]
    simp [pyDedupAux, pyEq]
  · rw [hp, hprompts]
    simp

theorem claim_C5_witness :
    ([JValue.obj [("type", JValue.str "human"), ("content", JValue.str "hello")],
      JValue.obj [("type", JValue.str "human"), ("content", JValue.str "hello")],
      JValue.obj [("type", JValue.str "human"), ("content", JValue.str "hello")],
      JValue.obj [("type", JValue.str "tool_use"), ("name", JValue.str "Write"),
                  ("input", JValue.obj [("file_path", JValue.str "/a.txt")])],
      JValue.obj [("type", JValue.str "tool_use"), ("name", JValue.str "Write"),
                  ("input", JValue.obj [("file_path", JValue.str "/a.txt")])]].filterMap capturedPrompt
      = ["hello", "hello", "hello"]) ∧
    ([JValue.obj [("type", JValue.str "human"), ("content", JValue.str "hello")],
      JValue.obj [("type", JValue.str "human"), ("content", JValue.str "hello")],
      JValue.obj [("type", JValue.str "human"), ("content", JValue.str "hello")],
      JValue.obj [("type", JValue.str "tool_use"), ("name", JValue.str "Write"),
                  ("input", JValue.obj [("file_path", JValue.str "/a.txt")])],
      JValue.obj [("type", JValue.str "tool_use"), ("name", JValue.str "Write"),
                  ("input", JValue.obj [("file_path", JValue.str "/a.txt")])]].filterMap capturedMutation
      = [JValue.str "/a.txt", JValue.str "/a.txt"]) ∧
    extract_session_info
      [JValue.obj [("type", JValue.str "human"), ("content", JValue.str "hello")],
       JValue.obj [("type", JValue.str "human"), ("content", JValue.str "hello")],
       JValue.obj [("type", JValue.str "human"), ("content", JValue.str "hello")],
       JValue.obj [("type", JValue.str "tool_use"), ("name", JValue.str "Write"),
                   ("input", JValue.obj [("file_path", JValue.str "/a.txt")])],
       JValue.obj [("type", JValue.str "tool_use"), ("name", JValue.str "Write"),
                   ("input", JValue.obj [("file_path", JValue.str "/a.txt")])]]
      = .ok ⟨["hello", "hello", "hello"], [JValue.str "Write"], [JValue.str "/a.txt"], [], [], [], [], 5⟩ ∧
    ((⟨["hello", "hello", "hello"], [JValue.str "Write"], [JValue.str "/a.txt"], [], [], [], [], 5⟩ : SessionInfo).files_modified.length = 1 ∧
     (⟨["hello", "hello", "hello"], [JValue.str "Write"], [JValue.str "/a.txt"], [], [], [], [], 5⟩ : SessionInfo).user_prompts.length = 3) :=
  ⟨rfl, rfl, rfl,
   claim_C5
     [JValue.obj [("type", JValue.str "human"), ("content", JValue.str "hello")],
       JValue.obj [("type", JValue.str "human"), ("content", JValue.str "hello")],
       JValue.obj [("type", JValue.str "human"), ("content", JValue.str "hello")],
       JValue.obj [("type", JValue.str "tool_use"), ("name", JValue.str "Write"),
                   ("input", JValue.obj [("file_path", JValue.str "/a.txt")])],
       JValue.obj [("type", JValue.str "tool_use"), ("name", JValue.str "Write"),
                   ("input", JValue.obj [("file_path", JValue.str "/a.txt")])]]
     ⟨["hello", "hello", "hello"], [JValue.str "Write"], [JValue.str "/a.txt"], [], [], [], [], 5⟩
     "hello" "hello" "hello" "/a.txt" rfl rfl rfl⟩

/-- C7: the recorded tool names are exactly the first-occurrence
deduplication of the tool identifiers captured per record, in input order;
in particular no later entry is Python-equal to an earlier one. -/
theorem claim_C7 (msgs : List JValue) (info : SessionInfo)
    (h : extract_session_info msgs = .ok info) :
    info.tools_used = pyDedupAux [] (msgs.filterMap capturedToolId) ∧
    List.Pairwise (fun a b => pyEq b a = false) info.tools_used := by
  obtain ⟨-, ht, -, -, -, -, -, -⟩ := extract_ok_spec msgs info h
  refine ⟨ht, ?_⟩
  rw [ht]
  exact pyDedupAux_pairwise _

theorem claim_C7_witness :
    extract_session_info
      [JValue.obj [("type", JValue.str "tool_use"), ("name", JValue.str "Read")],
       JValue.obj [("tool", JValue.str "Grep")],
       JValue.obj [("type", JValue.str "tool_use"), ("name", JValue.str "Read")]]
      = .ok ⟨[], [JValue.str "Read", JValue.str "Grep"], [], [], [], [], [], 3⟩ ∧
    ((⟨[], [JValue.str "Read", JValue.str "Grep"], [], [], [], [], [], 3⟩ : SessionInfo).tools_used
        = pyDedupAux []
            ([JValue.obj [("type", JValue.str "tool_use"), ("name", JValue.str "Read")],
              JValue.obj [("tool", JValue.str "Grep")],
              JValue.obj [("type", JValue.str "tool_use"), ("name", JValue.str "Read")]].filterMap capturedToolId) ∧
     List.Pairwise (fun a b => pyEq b a = false)
        (⟨[], [JValue.str "Read", JValue.str "Grep"], [], [], [], [], [], 3⟩ : SessionInfo).tools_used) :=
  ⟨rfl, claim_C7
     [JValue.obj [("type", JValue.str "tool_use"), ("name", JValue.str "Read")],
       JValue.obj [("tool", JValue.str "Grep")],
       JValue.obj [("type", JValue.str "tool_use"), ("name", JValue.str "Read")]]
     ⟨[], [JValue.str "Read", JValue.str "Grep"], [], [], [], [], [], 3⟩ rfl⟩

/-- C9: the spec's example error record is captured: its content text is
under 150 characters and is stored verbatim in `errors_encountered`. -/
theorem claim_C9 :
    (extract_session_info
      [JValue.obj [("type", JValue.str "tool_result"),
                   ("content", JValue.str "Build failed: missing semicolon")]]).map
      (fun i => i.errors_encountered)
    = .ok ["Build failed: missing semicolon"] := rfl

/-- C10: no rule ever appends to `files_created` and the post-pass leaves it
untouched, so it is empty in every successfully returned SessionInfo. -/
theorem claim_C10 (msgs : List JValue) (info : SessionInfo)
    (h : extract_session_info msgs = .ok info) : info.files_created = [] := by
  obtain ⟨-, -, -, -, hfc, -, -, -⟩ := extract_ok_spec msgs info h
  exact hfc

theorem claim_C10_witness :
    extract_session_info
      [JValue.obj [("type", JValue.str "tool_use"), ("name", JValue.str "Write"),
                   ("input", JValue.obj [("file_path", JValue.str "/w.txt")])]]
      = .ok ⟨[], [JValue.str "Write"], [JValue.str "/w.txt"], [], [], [], [], 1⟩ ∧
    (⟨[], [JValue.str "Write"], [JValue.str "/w.txt"], [], [], [], [], 1⟩ : SessionInfo).files_created = [] :=
  ⟨rfl, claim_C10
     [JValue.obj [("type", JValue.str "tool_use"), ("name", JValue.str "Write"),
                   ("input", JValue.obj [("file_path", JValue.str "/w.txt")])]]
     ⟨[], [JValue.str "Write"], [JValue.str "/w.txt"], [], [], [], [], 1⟩ rfl⟩

/-- C6: the renderer is deterministic in the SessionInfo — two renderings of
the same aggregate agree line for line once the generation-timestamp line
(index 3) is removed, and `generate_summary` is exactly those lines joined
with newlines. -/
theorem claim_C6 (info : SessionInfo) (t1 t2 : String) :
    (summaryLines info t1).map (fun ls => ls.eraseIdx 3)
      = (summaryLines info t2).map (fun ls => ls.eraseIdx 3) ∧
    generate_summary info t1 = (summaryLines info t1).map (fun ls => String.intercalate "\n" ls) := by
  constructor
  · unfold summaryLines
    cases hb : summaryBody info <;> simp [List.eraseIdx, Except.map]
  · unfold generate_summary
    cases hs : summaryLines info t1 <;> simp [hs, Except.map]

/-- C8: with the envelope naming a missing transcript and `--summary` set,
`main` exits 0, appends the envelope to the `stop.json` archive, leaves both
summary artifacts untouched, and prints nothing. -/
theorem claim_C8 (logDirOf : JValue → String) (loads : String → Option JValue)
    (chat : Bool) (p : String) (old : List JValue) (nowText nowIso : String) (fs : FS)
    (harch : fsRead fs (logDirOf (.str "s1") ++ "/stop.json") = some (.jsonData (.arr old)))
    (hmiss : fsExists fs p = false) :
    (StopHook.main logDirOf loads chat true
        (some (.obj [("session_id", .str "s1"), ("transcript_path", .str p)]))
        nowText nowIso fs).exitCode = 0 ∧
    fsRead (StopHook.main logDirOf loads chat true
        (some (.obj [("session_id", .str "s1"), ("transcript_path", .str p)]))
        nowText nowIso fs).fs (logDirOf (.str "s1") ++ "/stop.json")
      = some (.jsonData (.arr (old ++ [.obj [("session_id", .str "s1"), ("transcript_path", .str p)]]))) ∧
    fsRead (StopHook.main logDirOf loads chat true
        (some (.obj [("session_id", .str "s1"), ("transcript_path", .str p)]))
        nowText nowIso fs).fs (logDirOf (.str "s1") ++ "/session_summary.txt")
      = fsRead fs (logDirOf (.str "s1") ++ "/session_summary.txt") ∧
    fsRead (StopHook.main logDirOf loads chat true
        (some (.obj [("session_id", .str "s1"), ("transcript_path", .str p)]))
        nowText nowIso fs).fs (logDirOf (.str "s1") ++ "/session_summary.json")
      = fsRead fs (logDirOf (.str "s1") ++ "/session_summary.json") ∧
    (StopHook.main logDirOf loads chat true
        (some (.obj [("session_id", .str "s1"), ("transcript_path", .str p)]))
        nowText nowIso fs).stdout = [] ∧
    (StopHook.main logDirOf loads chat true
        (some (.obj [("session_id", .str "s1"), ("transcript_path", .str p)]))
        nowText nowIso fs).stderr = [] := by
  have hpne : (logDirOf (.str "s1") ++ "/stop.json") ≠ p := by
    intro he
    rw [← he] at hmiss
    unfold fsExists at hmiss
    rw [harch] at hmiss
    simp at hmiss
  have hmain : StopHook.main logDirOf loads chat true
      (some (.obj [("session_id", .str "s1"), ("transcript_path", .str p)]))
      nowText nowIso fs
      = ⟨0, fsWrite fs (logDirOf (.str "s1") ++ "/stop.json")
              (.jsonData (.arr (old ++ [.obj [("session_id", .str "s1"), ("transcript_path", .str p)]]))),
           [], []⟩ := by
    have hd1 : dGet [("session_id", JValue.str "s1"), ("transcript_path", JValue.str p)]
        "session_id" (.str "unknown") = .str "s1" := rfl
    have hd2 : dGet [("session_id", JValue.str "s1"), ("transcript_path", JValue.str p)]
        "transcript_path" (.str "") = .str p := rfl
    simp only [StopHook.main, hd1, hd2, harch]
    simp only [transcriptStep]
    by_cases hp0 : truthy (.str p) = true
    · simp only [hp0, reduceIte]
      have hex : fsExists (fsWrite fs (logDirOf (.str "s1") ++ "/stop.json")
          (.jsonData (.arr (old ++ [.obj [("session_id", .str "s1"), ("transcript_path", .str p)]])))) p
          = false := by
        unfold fsExists
        rw [fsRead_fsWrite_other _ _ _ _ hpne]
        exact hmiss
      simp only [hex, Bool.false_eq_true, reduceIte]
    · rw [Bool.not_eq_true] at hp0
      simp only [hp0, Bool.false_eq_true, reduceIte]
  have hne1 : (logDirOf (.str "s1") ++ "/stop.json")
      ≠ (logDirOf (.str "s1") ++ "/session_summary.txt") := by
    intro he
    exact absurd (strAppend_cancel _ _ _ he) (by decide)
  have hne2 : (logDirOf (.str "s1") ++ "/stop.json")
      ≠ (logDirOf (.str "s1") ++ "/session_summary.json") := by
    intro he
    exact absurd (strAppend_cancel _ _ _ he) (by decide)
  rw [hmain]
  exact ⟨rfl, fsRead_fsWrite_self fs _ _,
    fsRead_fsWrite_other fs _ _ _ hne1, fsRead_fsWrite_other fs _ _ _ hne2, rfl, rfl⟩

theorem claim_C8_witness :
    fsRead [("L/stop.json", FileData.jsonData (.arr []))] ((fun _ : JValue => "L") (.str "s1") ++ "/stop.json")
      = some (.jsonData (.arr [])) ∧
    fsExists [("L/stop.json", FileData.jsonData (.arr []))] "T" = false ∧
    ((StopHook.main (fun _ => "L") (fun _ => none) false true
        (some (.obj [("session_id", .str "s1"), ("transcript_path", .str "T")]))
        "N1" "N2" [("L/stop.json", FileData.jsonData (.arr []))]).exitCode = 0 ∧
     fsRead (StopHook.main (fun _ => "L") (fun _ => none) false true
        (some (.obj [("session_id", .str "s1"), ("transcript_path", .str "T")]))
        "N1" "N2" [("L/stop.json", FileData.jsonData (.arr []))]).fs ((fun _ : JValue => "L") (.str "s1") ++ "/stop.json")
      = some (.jsonData (.arr ([] ++ [.obj [("session_id", .str "s1"), ("transcript_path", .str "T")]]))) ∧
     fsRead (StopHook.main (fun _ => "L") (fun _ => none) false true
        (some (.obj [("session_id", .str "s1"), ("transcript_path", .str "T")]))
        "N1" "N2" [("L/stop.json", FileData.jsonData (.arr []))]).fs ((fun _ : JValue => "L") (.str "s1") ++ "/session_summary.txt")
      = fsRead [("L/stop.json", FileData.jsonData (.arr []))] ((fun _ : JValue => "L") (.str "s1") ++ "/session_summary.txt") ∧
     fsRead (StopHook.main (fun _ => "L") (fun _ => none) false true
        (some (.obj [("session_id", .str "s1"), ("transcript_path", .str "T")]))
        "N1" "N2" [("L/stop.json", FileData.jsonData (.arr []))]).fs ((fun _ : JValue => "L") (.str "s1") ++ "/session_summary.json")
      = fsRead [("L/stop.json", FileData.jsonData (.arr []))] ((fun _ : JValue => "L") (.str "s1") ++ "/session_summary.json") ∧
     (StopHook.main (fun _ => "L") (fun _ => none) false true
        (some (.obj [("session_id", .str "s1"), ("transcript_path", .str "T")]))
        "N1" "N2" [("L/stop.json", FileData.jsonData (.arr []))]).stdout = [] ∧
     (StopHook.main (fun _ => "L") (fun _ => none) false true
        (some (.obj [("session_id", .str "s1"), ("transcript_path", .str "T")]))
        "N1" "N2" [("L/stop.json", FileData.jsonData (.arr []))]).stderr = []) :=
  ⟨rfl, rfl,
   claim_C8 (fun _ => "L") (fun _ => none) false "T" [] "N1" "N2"
     [("L/stop.json", FileData.jsonData (.arr []))] rfl rfl⟩
